import Mathlib

/-!
Shallow embedding of the proposer-block tree subsystem
(`src/blockchain/proposer.rs`) of the prism blockchain node.

Modelling conventions:
* Rust `u16`/`u32` values are `Nat`s; where overflow matters the arithmetic
  is checked explicitly (Rust's `+=`/`-=` with overflow checks enabled abort
  on overflow/underflow), and a failing operation is returned as a `Panic`.
* A Rust `panic!` (and an aborting arithmetic check or out-of-bounds Vec
  index) is modelled by returning the state as it was at the moment of the
  panic together with `some p` for the panic kind `p`; a normal return is
  the new state together with `none`.
* `HashSet<H256>` is a `Finset H256`; `HashMap<u32, u32>` is an association
  list with unique keys, looked up with `assocFind`.
* The storage collaborator (`BlockChainDatabase`, RocksDB) and the `H256`
  hash type live outside the given sources and are modelled from the spec
  (see the individual doc comments).
-/

namespace Prism

/-- Modelled from the spec: `H256` (crate `crypto::hash`, not among the given
sources) is a 256-bit block hash; `H256::default()` is the all-zero hash. -/
abbrev H256 := Fin (2 ^ 256)

/-- The kinds of abort a call can end in: a Rust `panic!`, an out-of-bounds
`Vec` index, or a checked-arithmetic failure. -/
inductive Panic where
  /-- Out-of-bounds `Vec` index (`self.prop_nodes[level]` beyond the length). -/
  | indexOutOfBounds
  /-- Source `panic!("Trying to insert a new proposer block at level greater than best level + 1.")` -/
  | protocolViolation
  /-- Source `panic!("The leader the level {} exists", level)` -/
  | leaderExists
  /-- Source `panic!("No leader block at level {}", level)` -/
  | noLeader
  /-- Source `panic!("Database error {}", e)` -/
  | dbError
  /-- Checked `+=` overflow. -/
  | overflow
  /-- Checked `-=` underflow. -/
  | underflow
deriving DecidableEq, Repr

/-- The leader status of a proposer block (`enum Status`). -/
inductive Status where
  | Leader
  | PotentialLeader
  | NotLeaderUnconfirmed
  | NotLeaderAndConfirmed
deriving DecidableEq, Repr

/-- The metadata of a proposer block (`struct NodeData`). `level` is a `u32`,
`votes` a `u16`. -/
structure NodeData where
  level : Nat
  leadership_status : Status
  votes : Nat
deriving DecidableEq, Repr

/-- Source `NodeData::default()`: level 0, `PotentialLeader`, 0 votes. -/
def NodeData.default : NodeData :=
  { level := 0, leadership_status := Status.PotentialLeader, votes := 0 }

/-- Source `NodeData::increment_vote`: `self.votes += 1` on a `u16`, with the
overflow check made explicit. -/
def NodeData.increment_vote (nd : NodeData) : NodeData × Option Panic :=
  if nd.votes + 1 < 2 ^ 16 then ({ nd with votes := nd.votes + 1 }, none)
  else (nd, some Panic.overflow)

/-- Source `NodeData::decrement_vote`: `self.votes -= 1` on a `u16`, with the
underflow check made explicit: at `votes == 0` the subtraction aborts instead
of wrapping. -/
def NodeData.decrement_vote (nd : NodeData) : NodeData × Option Panic :=
  if nd.votes = 0 then (nd, some Panic.underflow)
  else ({ nd with votes := nd.votes - 1 }, none)

/-- Source `NodeData::genesis(number_of_voter_chains)`: default metadata with
`Leader` status and `votes` the number of voter chains. -/
def NodeData.genesis (number_of_voter_chains : Nat) : NodeData :=
  { NodeData.default with
    leadership_status := Status.Leader, votes := number_of_voter_chains }

/-- Association-list lookup (the model of `HashMap` / keyed-store `get`). -/
def assocFind {α β : Type} [DecidableEq α] (k : α) : List (α × β) → Option β
  | [] => none
  | (k', v) :: rest => if k' = k then some v else assocFind k rest

/-- Association-list update: replace the entry at `k`, or append one
(the model of `HashMap::insert` / keyed-store `put`). -/
def assocUpdate {α β : Type} [DecidableEq α] (k : α) (v : β) :
    List (α × β) → List (α × β)
  | [] => [(k, v)]
  | (k', v') :: rest =>
      if k' = k then (k, v) :: rest else (k', v') :: assocUpdate k v rest

/-- Association-list deletion of every entry at `k`. -/
def assocErase {α β : Type} [DecidableEq α] (k : α) : List (α × β) → List (α × β)
  | [] => []
  | (k', v') :: rest =>
      if k' = k then assocErase k rest else (k', v') :: assocErase k rest

/-- Little-endian byte serialization: `toBytesLE k n` is the `k` low-order
bytes of `n`. -/
def toBytesLE : Nat → Nat → List Nat
  | 0, _ => []
  | k + 1, n => n % 256 :: toBytesLE k (n / 256)

/-- Little-endian byte deserialization, inverse of `toBytesLE`. -/
def fromBytesLE : List Nat → Nat
  | [] => 0
  | b :: rest => b + 256 * fromBytesLE rest

/-- Modelled from the spec: `bincode::serialize` of a `u32` level (the
`bincode` crate is outside the given sources; the spec requires a fixed
deterministic encoding such as 4-byte little-endian). -/
def serializeU32 (n : Nat) : List Nat := toBytesLE 4 n

/-- Modelled from the spec: `bincode::serialize` of an `H256` hash as 32
little-endian bytes. -/
def serializeH256 (h : H256) : List Nat := toBytesLE 32 h.val

/-- Modelled from the spec: `bincode::deserialize` of an `H256` hash; fails
(`None`, which the source unwraps into a panic) on malformed input. -/
def deserializeH256 (l : List Nat) : Option H256 :=
  if hl : l.length = 32 ∧ fromBytesLE l < 2 ^ 256 then some ⟨fromBytesLE l, hl.2⟩
  else none

/-- Modelled from the spec: the `PROP_TREE_LEADER_VEC_CF` column family of
`BlockChainDatabase` (a keyed byte store, outside the given sources), as an
association list from serialized key to serialized value. -/
abbrev LeaderDb := List (List Nat × List Nat)

/-- Modelled from the spec: `db.handle.get_cf(cf, key)` — optional-bytes
lookup. -/
def dbGet (db : LeaderDb) (key : List Nat) : Option (List Nat) :=
  assocFind key db

/-- Modelled from the spec: `db.handle.put_cf(cf, key, value)`. -/
def dbPut (db : LeaderDb) (key value : List Nat) : LeaderDb :=
  assocUpdate key value db

/-- Modelled from the spec: `db.handle.delete_cf(cf, key)` — per the spec's
chosen policy, deleting a non-existent key is a failure (`none`); deleting a
present key removes it. -/
def dbDelete (db : LeaderDb) (key : List Nat) : Option LeaderDb :=
  if (dbGet db key).isSome then some (assocErase key db) else none

/-- The metadata of a proposer block tree (`struct Tree`). The `db` field is
the content of the leader column family of the shared database handle. -/
structure Tree where
  db : LeaderDb
  best_block : H256
  best_level : Nat
  prop_nodes : List (List H256)
  number_of_votes : List (Nat × Nat)
  min_unconfirmed_level : Nat
  unreferred : Finset H256
deriving DecidableEq

namespace Tree

/-- Source `Tree::new(db)`: zero best block, `best_level = 0`, empty `prop_nodes`,
empty vote map, `min_unconfirmed_level = 1`, empty unreferred pool. -/
def new (db : LeaderDb) : Tree :=
  { db := db
    best_block := 0
    best_level := 0
    prop_nodes := []
    number_of_votes := []
    min_unconfirmed_level := 1
    unreferred := ∅ }

/-- Source `Tree::add_block_at_level(block, level)`:
if `best_level >= level` push onto `prop_nodes[level]` (the unguarded `Vec`
index panics when `prop_nodes` has at most `level` entries, before any
mutation); else if `best_level == level - 1` start a new level and advance
the frontier; else panic with the protocol-violation message. -/
def add_block_at_level (t : Tree) (block : H256) (level : Nat) :
    Tree × Option Panic :=
  if t.best_level ≥ level then
    if level < t.prop_nodes.length then
      ({ t with
          prop_nodes :=
            t.prop_nodes.set level (t.prop_nodes.getD level [] ++ [block]) },
        none)
    else (t, some Panic.indexOutOfBounds)
  else if t.best_level = level - 1 then
    ({ t with
        prop_nodes := t.prop_nodes ++ [[block]]
        best_block := block
        best_level := level },
      none)
  else (t, some Panic.protocolViolation)

/-- Source `Tree::increment_vote_at_level(level)`:
`*self.number_of_votes.entry(level).or_insert(0) += 1` on `u32` values, with
the overflow check made explicit. -/
def increment_vote_at_level (t : Tree) (level : Nat) : Tree × Option Panic :=
  let cur := (assocFind level t.number_of_votes).getD 0
  if cur + 1 < 2 ^ 32 then
    ({ t with number_of_votes := assocUpdate level (cur + 1) t.number_of_votes },
      none)
  else (t, some Panic.overflow)

/-- Source `Tree::insert_unreferred(hash)`: `HashSet::insert`. -/
def insert_unreferred (t : Tree) (hash : H256) : Tree :=
  { t with unreferred := insert hash t.unreferred }

/-- Source `Tree::remove_unreferred(hash)`: `HashSet::remove`. -/
def remove_unreferred (t : Tree) (hash : H256) : Tree :=
  { t with unreferred := t.unreferred.erase hash }

/-- Source `Tree::insert_leader_block(level, hash)`: panics if the key is already
present, otherwise stores the serialized hash under the serialized level. -/
def insert_leader_block (t : Tree) (level : Nat) (hash : H256) :
    Tree × Option Panic :=
  let key := serializeU32 level
  match dbGet t.db key with
  | some _ => (t, some Panic.leaderExists)
  | none => ({ t with db := dbPut t.db key (serializeH256 hash) }, none)

/-- Source `Tree::remove_leader_block(level)`: panics with a database error if the
delete fails, otherwise removes the entry. -/
def remove_leader_block (t : Tree) (level : Nat) : Tree × Option Panic :=
  match dbDelete t.db (serializeU32 level) with
  | some db' => ({ t with db := db' }, none)
  | none => (t, some Panic.dbError)

/-- Source `Tree::get_leader_block_at(level)`: `none` models the panic on a missing
entry (or a failing deserialize unwrap). -/
def get_leader_block_at (t : Tree) (level : Nat) : Option H256 :=
  match dbGet t.db (serializeU32 level) with
  | some v => deserializeH256 v
  | none => none

/-- Source `Tree::contains_leader_block_at(level)`. -/
def contains_leader_block_at (t : Tree) (level : Nat) : Bool :=
  (dbGet t.db (serializeU32 level)).isSome

end Tree

/-- Iterated `increment_vote_at_level` at a fixed level; a panic in any call
aborts the remaining calls, leaving the state at the panic. -/
def iterIncrement (t : Tree) (level : Nat) : Nat → Tree × Option Panic
  | 0 => (t, none)
  | n + 1 =>
      match iterIncrement t level n with
      | (t', none) => t'.increment_vote_at_level level
      | (t', some e) => (t', some e)

end Prism

/-! ## Helper lemmas -/

namespace Prism

theorem assocFind_assocUpdate_self {α β : Type} [DecidableEq α] (k : α) (v : β)
    (m : List (α × β)) : assocFind k (assocUpdate k v m) = some v := by
  induction m with
  | nil => simp [assocUpdate, assocFind]
  | cons p rest ih =>
      obtain ⟨k', v'⟩ := p
      by_cases hk : k' = k
      · simp [assocUpdate, assocFind, hk]
      · simp [assocUpdate, assocFind, hk, ih]

theorem assocFind_assocErase_self {α β : Type} [DecidableEq α] (k : α)
    (m : List (α × β)) : assocFind k (assocErase k m) = none := by
  induction m with
  | nil => simp [assocErase, assocFind]
  | cons p rest ih =>
      obtain ⟨k', v'⟩ := p
      by_cases hk : k' = k
      · simp [assocErase, hk, ih]
      · simp [assocErase, assocFind, hk, ih]

theorem toBytesLE_length (k n : Nat) : (toBytesLE k n).length = k := by
  induction k generalizing n with
  | zero => simp [toBytesLE]
  | succ k ih => simp [toBytesLE, ih]

theorem fromBytesLE_toBytesLE (k n : Nat) (h : n < 256 ^ k) :
    fromBytesLE (toBytesLE k n) = n := by
  induction k generalizing n with
  | zero =>
      simp [toBytesLE, fromBytesLE]
      exact (Nat.lt_one_iff.mp (by simpa using h)).symm
  | succ k ih =>
      have hdiv : n / 256 < 256 ^ k := by
        rw [Nat.div_lt_iff_lt_mul (by norm_num : (0:Nat) < 256)]
        calc n < 256 ^ (k + 1) := h
          _ = 256 ^ k * 256 := by rw [pow_succ]
      simp [toBytesLE, fromBytesLE, ih _ hdiv]
      exact Nat.mod_add_div n 256

theorem h256_val_lt (h : H256) : h.val < 256 ^ 32 := by
  have h2 : (2 : Nat) ^ 256 = 256 ^ 32 := by norm_num
  calc h.val < 2 ^ 256 := h.isLt
    _ = 256 ^ 32 := h2

theorem deserializeH256_serializeH256 (h : H256) :
    deserializeH256 (serializeH256 h) = some h := by
  have hval : fromBytesLE (toBytesLE 32 h.val) = h.val :=
    fromBytesLE_toBytesLE 32 h.val (h256_val_lt h)
  unfold deserializeH256 serializeH256
  rw [dif_pos ⟨toBytesLE_length 32 h.val, by rw [hval]; exact h.isLt⟩]
  exact congrArg some (Fin.ext (by simp [hval]))

end Prism

/-! ## Claims about `add_block_at_level` -/

namespace Prism

/-- Claim C1 (code bug): the spec's invariant `prop_nodes.length == best_level + 1`
does NOT hold after every level-monotone `add_block_at_level` call starting from
`Tree::new()`. Concretely: from a fresh tree (where `best_level = 0`, so a call
at level 1 is monotone), `add_block_at_level(B1, 1)` succeeds yet leaves
`prop_nodes.length = 1` while `best_level + 1 = 2`; moreover the other monotone
first call, at level 0, aborts with an out-of-bounds index instead of
establishing the invariant. -/
theorem c1_level_invariant_violated :
    ((Tree.new []).add_block_at_level 1 1).2 = none ∧
    ((Tree.new []).add_block_at_level 1 1).1.prop_nodes.length = 1 ∧
    ((Tree.new []).add_block_at_level 1 1).1.best_level = 1 ∧
    ((Tree.new []).add_block_at_level 1 1).1.prop_nodes.length ≠
      ((Tree.new []).add_block_at_level 1 1).1.best_level + 1 ∧
    (Tree.new []).add_block_at_level 1 0 =
      (Tree.new [], some Panic.indexOutOfBounds) := by
  decide

/-- Claim C2 (code bug): in the spec's end-to-end scenario, after
`add_block_at_level(B1, 1)` on a fresh tree (which does set `best_level = 1`
and `best_block = B1`), the fork insert `add_block_at_level(B2, 1)` does NOT
append `B2` to level 1: it takes the append branch and indexes `prop_nodes[1]`
on a vector of length 1, aborting with an out-of-bounds index. -/
theorem c2_fork_insert_aborts :
    ((Tree.new []).add_block_at_level 1 1).1.best_level = 1 ∧
    ((Tree.new []).add_block_at_level 1 1).1.best_block = 1 ∧
    ((Tree.new []).add_block_at_level 1 1).1.prop_nodes = [[1]] ∧
    ((Tree.new []).add_block_at_level 1 1).1.add_block_at_level 2 1 =
      (((Tree.new []).add_block_at_level 1 1).1, some Panic.indexOutOfBounds) := by
  decide

/-- Claim C3: for every tree state and every level strictly greater than
`best_level + 1`, `add_block_at_level` fails with the protocol-violation
panic and leaves every field of the tree unchanged (the returned state is
the input state itself). -/
theorem c3_gap_insert_rejected (t : Tree) (block : H256) (level : Nat)
    (hgap : t.best_level + 1 < level) :
    t.add_block_at_level block level = (t, some Panic.protocolViolation) := by
  have h1 : ¬ (t.best_level ≥ level) := by omega
  have h2 : ¬ (t.best_level = level - 1) := by omega
  simp [Tree.add_block_at_level, h1, h2]

/-- Witness for C3 at the fresh tree and level 5. -/
theorem c3_gap_insert_rejected_witness :
    (Tree.new []).best_level + 1 < 5 ∧
    (Tree.new []).add_block_at_level 1 5 =
      (Tree.new [], some Panic.protocolViolation) :=
  ⟨by decide, c3_gap_insert_rejected (Tree.new []) 1 5 (by decide)⟩

/-- Claim C10: whenever `add_block_at_level` takes the append branch
(`best_level >= level`) on a tree whose `prop_nodes` has at most `level`
entries, the unguarded `prop_nodes[level]` index fails with an out-of-bounds
error — not the documented protocol-violation path — and the tree is
unchanged; in particular this happens for `add_block_at_level(h, 0)` on a
tree fresh from `Tree::new()`, whose `prop_nodes` is empty. -/
theorem c10_append_branch_out_of_bounds (t : Tree) (block : H256) (level : Nat)
    (hle : level ≤ t.best_level) (hlen : t.prop_nodes.length ≤ level) :
    t.add_block_at_level block level = (t, some Panic.indexOutOfBounds) := by
  have h1 : t.best_level ≥ level := hle
  have h2 : ¬ (level < t.prop_nodes.length) := by omega
  simp [Tree.add_block_at_level, h1, h2]

/-- Witness for C10 at the fresh tree and level 0. -/
theorem c10_append_branch_out_of_bounds_witness :
    (0 ≤ (Tree.new []).best_level ∧ (Tree.new []).prop_nodes.length ≤ 0) ∧
    (Tree.new []).add_block_at_level 7 0 =
      (Tree.new [], some Panic.indexOutOfBounds) :=
  ⟨⟨by decide, by decide⟩,
    c10_append_branch_out_of_bounds (Tree.new []) 7 0 (by decide) (by decide)⟩

end Prism

/-! ## Claims about `increment_vote_at_level` -/

namespace Prism

/-- Unfolding equation for one more iterated increment. -/
theorem iterIncrement_succ (t : Tree) (level n : Nat) :
    iterIncrement t level (n + 1) =
      match iterIncrement t level n with
      | (t', none) => t'.increment_vote_at_level level
      | (t', some e) => (t', some e) := rfl

/-- Closed form of `n` iterated vote increments at one level on a fresh tree,
for `n` within the `u32` range. -/
theorem iterIncrement_fresh (db : LeaderDb) (level : Nat) :
    ∀ n, n < 2 ^ 32 →
      iterIncrement (Tree.new db) level n =
        (if n = 0 then Tree.new db
         else { Tree.new db with number_of_votes := [(level, n)] }, none) := by
  intro n
  induction n with
  | zero => intro _; simp [iterIncrement]
  | succ n ih =>
      intro hn1
      have hn : n < 2 ^ 32 := by omega
      rw [iterIncrement_succ, ih hn]
      by_cases hn0 : n = 0
      · subst hn0
        simp [Tree.increment_vote_at_level, Tree.new, assocFind, assocUpdate]
      · simp only [if_neg hn0]
        simp [Tree.increment_vote_at_level, Tree.new, assocFind, assocUpdate,
              hn0, hn1]
        omega

/-- Claim C7 (amended: for `N` within the `u32` range of the vote counter):
calling `increment_vote_at_level(L)` exactly `N` times on a fresh tree
succeeds and yields `number_of_votes[L] == N`; a never-incremented level
(the case `N = 0`) is absent from the map. -/
theorem c7_vote_count (db : LeaderDb) (level N : Nat) (hN : N < 2 ^ 32) :
    (iterIncrement (Tree.new db) level N).2 = none ∧
    assocFind level (iterIncrement (Tree.new db) level N).1.number_of_votes =
      (if N = 0 then none else some N) := by
  rw [iterIncrement_fresh db level N hN]
  by_cases h0 : N = 0 <;> simp [h0, Tree.new, assocFind]

/-- Witness for C7 at `N = 3`, level 7. -/
theorem c7_vote_count_witness :
    3 < 2 ^ 32 ∧
    (iterIncrement (Tree.new []) 7 3).2 = none ∧
    assocFind 7 (iterIncrement (Tree.new []) 7 3).1.number_of_votes =
      (if 3 = 0 then none else some 3) :=
  ⟨by norm_num, (c7_vote_count [] 7 3 (by norm_num)).1,
    (c7_vote_count [] 7 3 (by norm_num)).2⟩

/-- Counterexample for C7 as stated (for every `N ≥ 0`): at
`N = 2^32 = 4294967296` the last increment overflows the `u32` counter and
aborts, and the level reads `2^32 - 1`, not `N`. -/
theorem c7_vote_count_counterexample :
    (iterIncrement (Tree.new []) 0 4294967296).2 = some Panic.overflow ∧
    assocFind 0 (iterIncrement (Tree.new []) 0 4294967296).1.number_of_votes =
      some 4294967295 := by
  have h1 : (4294967296 : Nat) = 4294967295 + 1 := by norm_num
  rw [h1, iterIncrement_succ,
      iterIncrement_fresh [] 0 4294967295 (by norm_num)]
  norm_num [Tree.increment_vote_at_level, Tree.new, assocFind]

end Prism

/-! ## Claims about the leader store -/

namespace Prism

theorem dbGet_dbPut_self (db : LeaderDb) (k v : List Nat) :
    dbGet (dbPut db k v) k = some v :=
  assocFind_assocUpdate_self k v db

theorem dbGet_assocErase_self (db : LeaderDb) (k : List Nat) :
    dbGet (assocErase k db) k = none :=
  assocFind_assocErase_self k db

/-- Reduction of a successful `insert_leader_block` (no prior entry). -/
theorem insert_leader_block_of_none (t : Tree) (L : Nat) (h : H256)
    (hfind : dbGet t.db (serializeU32 L) = none) :
    t.insert_leader_block L h =
      ({ t with db := dbPut t.db (serializeU32 L) (serializeH256 h) }, none) := by
  simp [Tree.insert_leader_block, hfind]

/-- Reduction of a failing `insert_leader_block` (entry present). -/
theorem insert_leader_block_of_some (t : Tree) (L : Nat) (h : H256) (v : List Nat)
    (hfind : dbGet t.db (serializeU32 L) = some v) :
    t.insert_leader_block L h = (t, some Panic.leaderExists) := by
  simp [Tree.insert_leader_block, hfind]

/-- Claim C4: after a successful `insert_leader_block(L, h1)`, a second call
`insert_leader_block(L, h2)` fails with the protocol-violation
(leader-exists) panic and leaves the store unchanged, and
`get_leader_block_at(L)` afterwards still returns `h1`. -/
theorem c4_double_leader_insert (t : Tree) (L : Nat) (h1 h2 : H256)
    (hok : (t.insert_leader_block L h1).2 = none) :
    (t.insert_leader_block L h1).1.insert_leader_block L h2 =
      ((t.insert_leader_block L h1).1, some Panic.leaderExists) ∧
    (t.insert_leader_block L h1).1.get_leader_block_at L = some h1 := by
  cases hfind : dbGet t.db (serializeU32 L) with
  | some v => rw [insert_leader_block_of_some t L h1 v hfind] at hok; simp at hok
  | none =>
      rw [insert_leader_block_of_none t L h1 hfind]
      constructor
      · exact insert_leader_block_of_some _ L h2 (serializeH256 h1)
          (by simp [dbGet_dbPut_self])
      · simp [Tree.get_leader_block_at, dbGet_dbPut_self,
              deserializeH256_serializeH256]

/-- Witness for C4 at the fresh tree, level 2, hashes 7 and 9. -/
theorem c4_double_leader_insert_witness :
    ((Tree.new []).insert_leader_block 2 7).2 = none ∧
    ((Tree.new []).insert_leader_block 2 7).1.insert_leader_block 2 9 =
      (((Tree.new []).insert_leader_block 2 7).1, some Panic.leaderExists) ∧
    ((Tree.new []).insert_leader_block 2 7).1.get_leader_block_at 2 = some 7 :=
  ⟨by decide, (c4_double_leader_insert (Tree.new []) 2 7 9 (by decide)).1,
    (c4_double_leader_insert (Tree.new []) 2 7 9 (by decide)).2⟩

/-- Claim C5: for every level `L` with no existing leader entry and every hash
`h`, `insert_leader_block(L, h)` succeeds, and afterwards
`contains_leader_block_at(L)` returns true and `get_leader_block_at(L)`
returns `h` — the serialize/store/load/deserialize round trip through the
storage collaborator recovers exactly the inserted hash. -/
theorem c5_leader_roundtrip (t : Tree) (L : Nat) (h : H256)
    (habs : t.contains_leader_block_at L = false) :
    (t.insert_leader_block L h).2 = none ∧
    (t.insert_leader_block L h).1.contains_leader_block_at L = true ∧
    (t.insert_leader_block L h).1.get_leader_block_at L = some h := by
  have hfind : dbGet t.db (serializeU32 L) = none := by
    rw [Tree.contains_leader_block_at] at habs
    exact Option.not_isSome_iff_eq_none.mp (by simp [habs])
  rw [insert_leader_block_of_none t L h hfind]
  refine ⟨rfl, ?_, ?_⟩
  · simp [Tree.contains_leader_block_at, dbGet_dbPut_self]
  · simp [Tree.get_leader_block_at, dbGet_dbPut_self,
          deserializeH256_serializeH256]

/-- Witness for C5 at the fresh tree, level 3, hash 5. -/
theorem c5_leader_roundtrip_witness :
    (Tree.new []).contains_leader_block_at 3 = false ∧
    ((Tree.new []).insert_leader_block 3 5).2 = none ∧
    ((Tree.new []).insert_leader_block 3 5).1.contains_leader_block_at 3 = true ∧
    ((Tree.new []).insert_leader_block 3 5).1.get_leader_block_at 3 = some 5 :=
  ⟨by decide, (c5_leader_roundtrip (Tree.new []) 3 5 (by decide)).1,
    (c5_leader_roundtrip (Tree.new []) 3 5 (by decide)).2.1,
    (c5_leader_roundtrip (Tree.new []) 3 5 (by decide)).2.2⟩

/-- Claim C6: `remove_leader_block(L)` on a level with no leader entry fails
(with the database-error panic, leaving the tree unchanged); and for every
level `L` and hash `h`, after `insert_leader_block(L, h)` followed by
`remove_leader_block(L)`, `contains_leader_block_at(L)` returns false. -/
theorem c6_remove_leader (t : Tree) (L : Nat) (h : H256) :
    (t.contains_leader_block_at L = false →
      t.remove_leader_block L = (t, some Panic.dbError)) ∧
    ((t.insert_leader_block L h).1.remove_leader_block L).1.contains_leader_block_at
      L = false := by
  constructor
  · intro habs
    have hfind : dbGet t.db (serializeU32 L) = none := by
      rw [Tree.contains_leader_block_at] at habs
      exact Option.not_isSome_iff_eq_none.mp (by simp [habs])
    simp [Tree.remove_leader_block, dbDelete, hfind]
  · cases hfind : dbGet t.db (serializeU32 L) with
    | some v =>
        rw [insert_leader_block_of_some t L h v hfind]
        simp [Tree.remove_leader_block, dbDelete, hfind,
              Tree.contains_leader_block_at, dbGet_assocErase_self]
    | none =>
        rw [insert_leader_block_of_none t L h hfind]
        simp [Tree.remove_leader_block, dbDelete, dbGet_dbPut_self,
              Tree.contains_leader_block_at, dbGet_assocErase_self]

/-- Witness for C6 at the fresh tree, level 4, hash 6. -/
theorem c6_remove_leader_witness :
    ((Tree.new []).contains_leader_block_at 4 = false ∧
      (Tree.new []).remove_leader_block 4 = (Tree.new [], some Panic.dbError)) ∧
    (((Tree.new []).insert_leader_block 4 6).1.remove_leader_block
        4).1.contains_leader_block_at 4 = false :=
  ⟨⟨by decide, (c6_remove_leader (Tree.new []) 4 6).1 (by decide)⟩,
    (c6_remove_leader (Tree.new []) 4 6).2⟩

end Prism

/-! ## Claims about `decrement_vote` and the unreferred pool -/

namespace Prism

/-- Claim C8: `NodeData::decrement_vote` on a node with `votes ≥ 1` decreases
`votes` by exactly one; on a node with `votes == 0` it is an explicit failure
(the checked `u16` subtraction aborts), not a silent wrap to `2^16 - 1`. -/
theorem c8_decrement_vote (nd : NodeData) :
    (1 ≤ nd.votes →
      nd.decrement_vote = ({ nd with votes := nd.votes - 1 }, none) ∧
      nd.decrement_vote.1.votes + 1 = nd.votes) ∧
    (nd.votes = 0 →
      nd.decrement_vote = (nd, some Panic.underflow) ∧
      nd.decrement_vote.1.votes ≠ 2 ^ 16 - 1) := by
  constructor
  · intro h1
    have h0 : ¬ (nd.votes = 0) := by omega
    refine ⟨by simp [NodeData.decrement_vote, h0], ?_⟩
    simp [NodeData.decrement_vote, h0]
    omega
  · intro h0
    refine ⟨by simp [NodeData.decrement_vote, h0], ?_⟩
    simp [NodeData.decrement_vote, h0]

/-- Witness for C8 at `votes = 3` (decrement) and `votes = 0` (failure). -/
theorem c8_decrement_vote_witness :
    (1 ≤ 3 ∧
      NodeData.decrement_vote
          { level := 0, leadership_status := Status.PotentialLeader, votes := 3 } =
        ({ level := 0, leadership_status := Status.PotentialLeader, votes := 2 },
          none)) ∧
    (NodeData.decrement_vote
          { level := 0, leadership_status := Status.PotentialLeader, votes := 0 } =
        ({ level := 0, leadership_status := Status.PotentialLeader, votes := 0 },
          some Panic.underflow)) :=
  ⟨⟨by decide,
      ((c8_decrement_vote
          { level := 0, leadership_status := Status.PotentialLeader, votes := 3 }).1
        (by decide)).1⟩,
    ((c8_decrement_vote
        { level := 0, leadership_status := Status.PotentialLeader, votes := 0 }).2
      (by decide)).1⟩

/-- Claim C9: for every hash `h` and every tree state, `insert_unreferred(h)`
twice followed by `remove_unreferred(h)` once leaves `h` absent from
`unreferred`; inserting an already-present hash and removing an absent hash
are no-ops (the tree is unchanged), not errors. -/
theorem c9_unreferred_pool (t : Tree) (h : H256) :
    h ∉ (((t.insert_unreferred h).insert_unreferred h).remove_unreferred
      h).unreferred ∧
    (h ∈ t.unreferred → t.insert_unreferred h = t) ∧
    (h ∉ t.unreferred → t.remove_unreferred h = t) := by
  refine ⟨?_, ?_, ?_⟩
  · simp [Tree.insert_unreferred, Tree.remove_unreferred]
  · intro hm
    show { t with unreferred := insert h t.unreferred } = t
    rw [Finset.insert_eq_self.mpr hm]
  · intro hm
    show { t with unreferred := t.unreferred.erase h } = t
    rw [Finset.erase_eq_self.mpr hm]

/-- Witness for C9: presence at a tree whose pool is the singleton of the
hash, absence at the fresh tree. -/
theorem c9_unreferred_pool_witness :
    ((1 : H256) ∈ ({ Tree.new [] with unreferred := {1} } : Tree).unreferred ∧
      Tree.insert_unreferred { Tree.new [] with unreferred := {1} } 1 =
        { Tree.new [] with unreferred := {1} }) ∧
    ((1 : H256) ∉ (Tree.new []).unreferred ∧
      Tree.remove_unreferred (Tree.new []) 1 = Tree.new []) ∧
    (1 : H256) ∉
      ((((Tree.new []).insert_unreferred 1).insert_unreferred 1).remove_unreferred
        1).unreferred :=
  ⟨⟨by decide,
      (c9_unreferred_pool { Tree.new [] with unreferred := {1} } 1).2.1 (by decide)⟩,
    ⟨by decide, (c9_unreferred_pool (Tree.new []) 1).2.2 (by decide)⟩,
    (c9_unreferred_pool (Tree.new []) 1).1⟩

end Prism
